import Mathlib

/-
Verification of the update/upgrade orchestration workflow of `bench/utils.py`
(frappe-bench deployment tool).  The Python source is shallowly embedded:

* JSON documents (`common_site_config.json`, `package.json`) become
  insertion-ordered association lists with Python `dict` semantics
  (`dget` / `dset` / `dUpdate`).
* `distutils.version.LooseVersion` is embedded component-by-component,
  including Python 3's `TypeError` on `int`-vs-`str` comparison.
* The `update` orchestration becomes a computation in a state-plus-error
  monad `UpdM`; external processes (git, pip, npm, the frappe migration
  executor) are abstracted by an `Env` record that supplies their exit
  codes, and every observable side effect is recorded in an event trace.
-/

namespace Bench

/-! ## Python dict semantics over insertion-ordered association lists -/

/-- Python `d[k]` / `k in d` lookup: first (and only, since `dset` never
duplicates keys) binding wins. -/
def dget {α : Type} : List (String × α) → String → Option α
  | [], _ => none
  | (k', v') :: rest, k => if k' = k then some v' else dget rest k

/-- Python `d[k] = v`: overwrite an existing binding in place, otherwise
append at the end (insertion order). -/
def dset {α : Type} : List (String × α) → String → α → List (String × α)
  | [], k, v => [(k, v)]
  | (k', v') :: rest, k, v =>
      if k' = k then (k, v) :: rest else (k', v') :: dset rest k v

/-- Python `d.update(kvs)`: apply each binding of `kvs` left to right. -/
def dUpdate {α : Type} (d : List (String × α)) (kvs : List (String × α)) :
    List (String × α) :=
  kvs.foldl (fun acc kv => dset acc kv.1 kv.2) d

theorem dget_dset_self {α : Type} (d : List (String × α)) (k : String) (v : α) :
    dget (dset d k v) k = some v := by
  induction d with
  | nil => simp [dset, dget]
  | cons hd tl ih =>
      by_cases h : hd.1 = k
      · simp [dset, dget, h]
      · simp [dset, dget, h, ih]

theorem dget_dset_ne {α : Type} (d : List (String × α)) {k' k : String} (v : α)
    (h : k' ≠ k) : dget (dset d k' v) k = dget d k := by
  induction d with
  | nil => simp [dset, dget, h]
  | cons hd tl ih =>
      by_cases h2 : hd.1 = k'
      · simp [dset, dget, h2, h]
      · by_cases h3 : hd.1 = k <;> simp [dset, dget, h2, h3, ih, Ne.symm h]

/-- Keys absent from the argument of `d.update` are untouched. -/
theorem dget_dUpdate_of_not_mem {α : Type} (kvs : List (String × α))
    (d : List (String × α)) (k : String) (h : dget kvs k = none) :
    dget (dUpdate d kvs) k = dget d k := by
  induction kvs generalizing d with
  | nil => simp [dUpdate]
  | cons hd tl ih =>
      simp only [dget] at h
      by_cases hk : hd.1 = k
      · simp [hk] at h
      · simp only [hk, if_false] at h
        simpa [dUpdate] using (ih (dset d hd.1 hd.2) h).trans
          (dget_dset_ne d hd.2 hk)

/-! ## JSON values -/

/-- A JSON value as produced by `json.loads`. -/
inductive JValue where
  | str (s : String)
  | num (n : Int)
  | bool (b : Bool)
  | null
  | arr (elems : List JValue)
  | obj (fields : List (String × JValue))

/-! ## Python-level errors that the embedded code can surface -/

/-- How an embedded computation can terminate abnormally: `sysExit` is
`sys.exit(code)` / `SystemExit`, `exc` is a plain `raise Exception(msg)`,
`clickAbort` is the `click.confirm(abort=True)` rejection, and
`typeError` / `attrError` are the interpreter-level errors Python raises
on ill-typed comparisons and missing attributes. -/
inductive Err where
  | sysExit (code : Int)
  | patchError
  | calledProcessError
  | clickAbort
  | exc (msg : String)
  | typeError
  | attrError
  deriving DecidableEq

/-! ## distutils.version.LooseVersion (as used by update_node_packages) -/

/-- One component of a `LooseVersion`: the parser turns maximal digit runs
into integers and leaves everything else as strings. -/
inductive LVComp where
  | num (n : Nat)
  | str (s : String)
  deriving DecidableEq

/-- Character classes of the `LooseVersion` tokenizer
(`component_re = (\d+ | [a-z]+ | \.)`). -/
inductive LVClass where
  | digit
  | lower
  | dot
  | other
  deriving DecidableEq

def lvClassify (c : Char) : LVClass :=
  if c.isDigit then .digit
  else if 'a' ≤ c ∧ c ≤ 'z' then .lower
  else if c = '.' then .dot
  else .other

def digitsToNat (cs : List Char) : Nat :=
  cs.foldl (fun acc c => acc * 10 + (c.toNat - '0'.toNat)) 0

/-- Turn a finished character run into a `LooseVersion` component: digit
runs become integers (`int(x)` succeeds), every other run stays a string
(`int(x)` raises `ValueError`, which the parser swallows). -/
def lvFlush (k : LVClass) (buf : List Char) : List LVComp :=
  match k, buf with
  | _, [] => []
  | .digit, cs => [.num (digitsToNat cs.reverse)]
  | _, cs => [.str (String.mk cs.reverse)]

/-- Tokenizer loop: `re.split` with the capturing group above keeps maximal
runs of digits and of lowercase letters as matches, keeps maximal runs of
other characters as the text between matches, and the parser drops the `.`
pieces and the empty pieces. -/
def lvTokenize : List Char → LVClass → List Char → List LVComp
  | [], k, buf => lvFlush k buf
  | c :: cs, k, buf =>
      let kc := lvClassify c
      if kc = .dot then lvFlush k buf ++ lvTokenize cs .dot []
      else if kc = k then lvTokenize cs k (c :: buf)
      else lvFlush k buf ++ lvTokenize cs kc [c]

/-- `LooseVersion(vstring).version` for the strings this code compares. -/
def looseVersionParse (s : String) : List LVComp :=
  lvTokenize s.data .dot []

/-- Python `==` on two list elements: mixed `int`/`str` is `False`, never
an error. -/
def lvEq : LVComp → LVComp → Bool
  | .num a, .num b => a = b
  | .str a, .str b => a = b
  | _, _ => false

/-- Python `<` on two list elements: mixed `int`/`str` raises `TypeError`
in Python 3. -/
def lvLt : LVComp → LVComp → Except Err Bool
  | .num a, .num b => .ok (decide (a < b))
  | .str a, .str b => .ok (decide (a < b))
  | _, _ => .error .typeError

/-- Python `<` on lists: find the first index whose elements differ under
`==`, then compare those two elements with `<`; a strict prefix is
smaller. -/
def pyListLt : List LVComp → List LVComp → Except Err Bool
  | [], [] => .ok false
  | [], _ :: _ => .ok true
  | _ :: _, [] => .ok false
  | a :: as, b :: bs => if lvEq a b then pyListLt as bs else lvLt a b

/-- `LooseVersion.__lt__` via `_cmp`: an `==` check on the component lists
first (never an error), then Python list `<`. -/
def looseVersionLt (a b : List LVComp) : Except Err Bool :=
  if a = b then .ok false else pyListLt a b

/-- Which front-end package-manager backend `update_node_packages` runs. -/
inductive NodeBackend where
  | npm
  | yarn
  deriving DecidableEq

/-- The branch decision of `update_node_packages`: compare the frappe
develop version against the fixed threshold string `11.x.x-develop`;
below it run `update_npm_packages`, otherwise `update_yarn_packages`.
A `TypeError` escaping the comparison crashes the caller. -/
def update_node_packages_choice (developVersion : String) :
    Except Err NodeBackend :=
  match looseVersionLt (looseVersionParse developVersion)
      (looseVersionParse "11.x.x-develop") with
  | .error e => .error e
  | .ok true => .ok .npm
  | .ok false => .ok .yarn

/-! ## update_npm_packages: the legacy manifest merge -/

/-- One iteration of the merge loop body of `update_npm_packages`: a new
key is inserted; an existing key is merged depending on the type of the
incoming value (`dict.update`, `list.extend`, or plain overwrite), where
Python raises `AttributeError` if the stored value lacks the method. -/
def npmMergeItem (acc : List (String × JValue)) (kv : String × JValue) :
    Except Err (List (String × JValue)) :=
  match dget acc kv.1 with
  | none => .ok (dset acc kv.1 kv.2)
  | some old =>
      match kv.2 with
      | .obj newFields =>
          match old with
          | .obj oldFields =>
              .ok (dset acc kv.1 (.obj (dUpdate oldFields newFields)))
          | _ => .error .attrError
      | .arr newElems =>
          match old with
          | .arr oldElems => .ok (dset acc kv.1 (.arr (oldElems ++ newElems)))
          | _ => .error .attrError
      | v => .ok (dset acc kv.1 v)

/-- `for key, value in app_package_json.items(): ...` -/
def npmMergeItems (acc : List (String × JValue)) :
    List (String × JValue) → Except Err (List (String × JValue))
  | [] => .ok acc
  | kv :: rest =>
      match npmMergeItem acc kv with
      | .error e => .error e
      | .ok acc' => npmMergeItems acc' rest

/-- The outer loop of `update_npm_packages` over every app that has a
`package.json`, starting from the empty combined manifest.  (The
`if package_json is {}` fallback in the source compares identity against
a fresh literal and can never fire, so it is dead code.) -/
def npmMergeDocs (acc : List (String × JValue)) :
    List (List (String × JValue)) → Except Err (List (String × JValue))
  | [] => .ok acc
  | doc :: rest =>
      match npmMergeItems acc doc with
      | .error e => .error e
      | .ok acc' => npmMergeDocs acc' rest

/-! ## update_json_file / update_common_site_config -/

/-- `update_json_file(filename, ddict)`: load the current document when the
file exists (otherwise start from `{}`), `content.update(ddict)`, dump. -/
def update_json_file (fileExists : Bool) (content : List (String × JValue))
    (ddict : List (String × JValue)) : List (String × JValue) :=
  let content := if fileExists then content else []
  dUpdate content ddict

/-- `update_common_site_config(ddict)` delegates to `update_json_file` on
`sites/common_site_config.json`. -/
def update_common_site_config (fileExists : Bool)
    (content ddict : List (String × JValue)) : List (String × JValue) :=
  update_json_file fileExists content ddict

/-! ## The observable effects of the orchestration -/

/-- Events recorded, in order, while `bench update` runs.  `confUpdate`
is an in-memory `conf.update(kvs)` on the configuration document and
`confPersist` the `update_config` write that follows it; `frappeCmd` is a
`run_frappe_cmd` child-process invocation; `runCmd` is the
`subprocess.call` inside `exec_cmd`, preceded by its `echo` diagnostic
line. -/
inductive Eff where
  | patchesRun
  | cacheRemoved
  | noCacheMsg
  | confUpdate (kvs : List (String × Int))
  | confPersist
  | echo (s : String)
  | runCmd (s : String)
  | warn (s : String)
  | frappeCmd (args : List String)
  | pullApps (apps : List String) (reset : Bool)
  | pipUpgrade
  | installApp (app : String)
  | yarnMissingMsg
  | npmWritePackageJson
  | pausedForShallowWarning
  | postUpgradeConfigRegen
  | compiledPy
  | restartSupervisor
  | restartSystemd
  deriving DecidableEq

/-- Mutable state of one `bench update` run: the configuration document
(kept in sync with `common_site_config.json`, since every `conf.update`
in this workflow is immediately followed by `update_config`), whether the
`.bench.cmd` cache file exists, and the chronological event trace. -/
structure St where
  conf : List (String × Int)
  cacheExists : Bool
  trace : List Eff
  deriving DecidableEq

/-- The external world: installed sites and apps, results of remote
queries (`is_version_upgrade`, branch validation), which executables
`which` finds, the frappe develop version read by
`update_node_packages`, every app's `package.json` document, and the
exit code of each external child process. -/
structure Env where
  benchPath : String
  sites : List String
  installedApps : List String
  branchValid : Bool
  isMajorUpgrade : Bool
  fromVer : Int
  toVer : Int
  operatorConfirms : Bool
  hasNpm : Bool
  hasNode : Bool
  hasNodejs : Bool
  hasYarn : Bool
  frappeDevVersion : String
  appsDirList : List String
  hasPackageJson : String → Bool
  packageJsons : List (List (String × JValue))
  frappeCode : List String → Int
  execCode : String → Int

/-- The computation monad of the embedding: state plus abnormal
termination.  A failing step still returns the state it stopped in, so
theorems can talk about the configuration left behind by an aborted
run. -/
def UpdM (α : Type) : Type := St → Except Err α × St

/-- Sequencing: run `x`; on success continue with `f`, on abnormal
termination keep the state reached so far. -/
def UpdM.bind {α β : Type} (x : UpdM α) (f : α → UpdM β) : UpdM β := fun s =>
  match x s with
  | (.ok a, s') => f a s'
  | (.error e, s') => (.error e, s')

instance : Monad UpdM where
  pure a := fun s => (.ok a, s)
  bind := UpdM.bind

/-- `raise e` / `sys.exit`. -/
def throwE {α : Type} (e : Err) : UpdM α := fun s => (.error e, s)

/-- Record one observable event. -/
def emit (e : Eff) : UpdM Unit :=
  fun s => (.ok (), { s with trace := s.trace ++ [e] })

/-- Read the configuration document (`bench.conf` /
`Bench(bench_path).conf`). -/
def getConf : UpdM (List (String × Int)) := fun s => (.ok s.conf, s)

/-- `conf.update(kvs)`: mutate the in-memory configuration and record the
event. -/
def confUpdateStep (kvs : List (String × Int)) : UpdM Unit :=
  fun s => (.ok (), { s with conf := dUpdate s.conf kvs,
                             trace := s.trace ++ [Eff.confUpdate kvs] })

/-- Python truthiness of `conf.get(key)` for the integer/boolean flags
this workflow reads (`0`/absent are falsy). -/
def confTruthy (conf : List (String × Int)) (key : String) : Bool :=
  match dget conf key with
  | some v => v ≠ 0
  | none => false

/-- Sequential `for` loop over a list. -/
def mForEach {α : Type} (f : α → UpdM Unit) : List α → UpdM Unit
  | [] => pure ()
  | x :: xs => do
      f x
      mForEach f xs

/-- A guarded statement, Python's `if cond: <side-effecting statement>`
with no else branch. -/
def whenB (c : Bool) (x : UpdM Unit) : UpdM Unit :=
  if c then x else pure ()

/-! ## Command Runner and frappe-command wrapper -/

/-- The `cmd_log` string built by `exec_cmd`. -/
def cmdLogOf (cwd cmd : String) : String :=
  (if cwd ≠ "." then "cd " ++ cwd ++ " && " else "") ++ cmd

/-- `exec_cmd(cmd, cwd)`: echo a diagnostic line, run the child process,
log a warning when its exit code is non-zero, and fall off the end of the
function — the Python function has no `return` statement, so its value is
always `None`. -/
def exec_cmd (env : Env) (cmd cwd : String) : UpdM (Option Int) := do
  emit (.echo ("$ " ++ cmd))
  emit (.runCmd cmd)
  let rc := env.execCode cmd
  whenB (decide (rc ≠ 0))
    (emit (.warn (cmdLogOf cwd cmd ++ " executed with exit code " ++ toString rc)))
  pure none

/-- `get_env_cmd(cmd)`: the virtualenv binary path. -/
def get_env_cmd (benchPath cmd : String) : String :=
  benchPath ++ "/env/bin/" ++ cmd

/-- `run_frappe_cmd(*args)`: spawn `env/bin/python -m
frappe.utils.bench_helper frappe *args` and, when the child exits with a
positive code, terminate the whole process via `sys.exit(return_code)`.
It never raises `subprocess.CalledProcessError`. -/
def run_frappe_cmd (env : Env) (args : List String) : UpdM Unit := do
  emit (.frappeCmd args)
  let rc := env.frappeCode args
  if rc > 0 then throwE (.sysExit rc) else pure ()

/-- `migrate_site(site)`. -/
def migrate_site (env : Env) (site : String) : UpdM Unit :=
  run_frappe_cmd env ["--site", site, "migrate"]

/-- `backup_site(site)`. -/
def backup_site (env : Env) (site : String) : UpdM Unit :=
  run_frappe_cmd env ["--site", site, "backup"]

/-- `backup_all_sites()`. -/
def backup_all_sites (env : Env) : UpdM Unit :=
  mForEach (backup_site env) env.sites

/-! ## Site Migrator -/

/-- The `try ... except subprocess.CalledProcessError: raise PatchError`
wrapper around each `migrate_site` call in `patch_sites`: only a
`CalledProcessError` is translated, every other abnormal exit (in
particular the `SystemExit` from `run_frappe_cmd`) passes through. -/
def tryExceptCPE (x : UpdM Unit) : UpdM Unit := fun s =>
  match x s with
  | (.error .calledProcessError, s') => (.error .patchError, s')
  | r => r

def patch_sites_loop (env : Env) : List String → UpdM Unit
  | [] => pure ()
  | s :: rest => do
      tryExceptCPE (migrate_site env s)
      patch_sites_loop env rest

/-- `patch_sites()`: migrate every hosted site in listed order. -/
def patch_sites (env : Env) : UpdM Unit :=
  patch_sites_loop env env.sites

/-! ## Asset Builder -/

/-- `build_assets(app=None)`: delegate to `exec_cmd("bench build ...")`. -/
def build_assets (env : Env) (app : Option String) : UpdM Unit := do
  let command := "bench build" ++
    (match app with
     | some a => " --app " ++ a
     | none => "")
  let _ ← exec_cmd env command env.benchPath
  pure ()

/-! ## Pieces living outside utils.py, modelled from the spec -/

/-- Modelled from the spec: `pull_apps` (bench.app, not under src/) — the
Source Synchronizer is run "over the selected Application subset (all, or
an explicit operator-provided list)", so an empty/None selection means
every installed application. -/
def pull_apps (env : Env) (apps : List String) (reset : Bool) : UpdM Unit :=
  emit (.pullApps (if apps.isEmpty then env.installedApps else apps) reset)

/-- Modelled from the spec: `validate_branch` (bench.app, not under src/)
— branch validation "is checked once per run, before any pulls begin, and
aborts the entire operation if violated". -/
def validate_branch (env : Env) : UpdM Unit :=
  if env.branchValid then pure () else throwE (.exc "branch not supported")

/-- Modelled from the spec: `install_app` (bench.app, not under src/) —
Dependency Installer step "install/update each Application's backend
dependencies in editable/local mode"; recorded as an event. -/
def install_app (app : String) : UpdM Unit :=
  emit (.installApp app)

/-! ## Dependency Installer -/

/-- `update_env_pip()`: upgrade pip inside the virtualenv once per run. -/
def update_env_pip (env : Env) : UpdM Unit := do
  emit .pipUpgrade
  let _ ← exec_cmd env
    (get_env_cmd env.benchPath "python" ++ " -m pip install -q -U pip")
    env.benchPath
  pure ()

/-- `update_requirements()`: upgrade pip, then install every app. -/
def update_requirements (env : Env) : UpdM Unit := do
  update_env_pip env
  mForEach install_app env.installedApps

/-- `update_yarn_packages()`: when `yarn` is missing print an advisory
message and return; otherwise run `yarn install` for every app directory
that has a `package.json`. -/
def update_yarn_packages (env : Env) : UpdM Unit := do
  if ¬ env.hasYarn then
    emit .yarnMissingMsg
  else
    mForEach
      (fun app =>
        if env.hasPackageJson app then do
          let _ ← exec_cmd env "yarn install" (env.benchPath ++ "/apps/" ++ app)
          pure ()
        else pure ())
      env.appsDirList

/-- `update_npm_packages()`: merge every app's `package.json` into one
combined manifest, write it at the bench root, then `npm install`. -/
def update_npm_packages (env : Env) : UpdM Unit := do
  match npmMergeDocs [] env.packageJsons with
  | .error e => throwE e
  | .ok _ => do
      emit .npmWritePackageJson
      let _ ← exec_cmd env "npm install" env.benchPath
      pure ()

/-- `update_node_packages()`: pick the backend by the `LooseVersion`
threshold comparison; a `TypeError` escaping that comparison aborts. -/
def update_node_packages (env : Env) : UpdM Unit :=
  match update_node_packages_choice env.frappeDevVersion with
  | .error e => throwE e
  | .ok .npm => update_npm_packages env
  | .ok .yarn => update_yarn_packages env

/-! ## Remaining helpers of the orchestration -/

/-- `clear_command_cache()`: delete `.bench.cmd` when present, otherwise
print a notice. -/
def clear_command_cache : UpdM Unit := fun s =>
  if s.cacheExists then
    (.ok (), { s with cacheExists := false, trace := s.trace ++ [Eff.cacheRemoved] })
  else
    (.ok (), { s with trace := s.trace ++ [Eff.noCacheMsg] })

/-- `validate_upgrade(from_ver, to_ver)`: for target major version 6 or
later, require a node tool chain; when `npm` is absent and neither `node`
nor `nodejs` is found, raise `Exception("Please install nodejs and npm")`. -/
def validate_upgrade (env : Env) (to_ver : Int) : UpdM Unit :=
  if to_ver ≥ 6 then
    if ¬ env.hasNpm ∧ ¬ (env.hasNode ∨ env.hasNodejs) then
      throwE (.exc "Please install nodejs and npm")
    else pure ()
  else pure ()

/-- `post_upgrade(from_ver, to_ver)`: re-read the configuration and, when
`restart_supervisor_on_update` is set, regenerate redis, supervisor and
nginx configuration. -/
def post_upgrade : UpdM Unit := do
  let conf ← getConf
  if confTruthy conf "restart_supervisor_on_update" then
    emit .postUpgradeConfigRegen
  else
    pure ()

/-! ## The update orchestration (bench update) -/

/-- The keyword arguments of `update(...)` with their CLI meaning. -/
structure UpdateArgs where
  pull : Bool
  apps : Option String
  patch : Bool
  build : Bool
  requirements : Bool
  backup : Bool
  compilePy : Bool
  force : Bool
  reset : Bool
  restartSupervisorFlag : Bool
  restartSystemdFlag : Bool

/-- The Python defaults of `update(...)`. -/
def UpdateArgs.default : UpdateArgs :=
  { pull := false, apps := none, patch := false, build := false,
    requirements := false, backup := true, compilePy := true,
    force := false, reset := false,
    restartSupervisorFlag := false, restartSystemdFlag := false }

/-- Python `str.strip()` (ASCII whitespace suffices for these inputs). -/
def pyStrip (s : String) : String :=
  String.mk (((s.data.dropWhile Char.isWhitespace).reverse.dropWhile
    Char.isWhitespace).reverse)

/-- `re.split(",| ", s)`: cut at every single comma or space. -/
def splitCommaSpace : List Char → List (List Char)
  | [] => [[]]
  | c :: rest =>
      let r := splitCommaSpace rest
      if c = ',' ∨ c = ' ' then [] :: r
      else
        match r with
        | h :: t => (c :: h) :: t
        | [] => [[c]]

/-- `[app.strip() for app in re.split(",| ", apps) if app]`. -/
def parseAppsArg (s : String) : List String :=
  (((splitCommaSpace s.data).map String.mk).filter (fun p => p ≠ "")).map pyStrip

/-- The value the `apps` variable holds when `pull_apps` is reached:
`if apps and not pull: apps = []` discards a truthy operator list when
`--pull` was not passed, and `if apps: apps = [...]` splits a surviving
non-empty string.  `None`, `""` and `[]` are all falsy, so they reach
`pull_apps` as the empty selection. -/
def resolveAppsArg (apps : Option String) (pull : Bool) : List String :=
  match apps with
  | none => []
  | some s => if s = "" then [] else if ¬ pull then [] else parseAppsArg s

/-- Lines 149-198 of `update`: run bench patches, discard the apps list
when `--pull` is absent, clear the command cache, abort on a release
bench, apply the all-stages default, validate the branch, gate a major
upgrade behind confirmation, warn about shallow clones, and run
`validate_upgrade` when the upgrade is major or forced.  Returns the
effective `(pull, patch, build, requirements)` stage switches. -/
def update_preflight (env : Env) (a : UpdateArgs) :
    UpdM (Bool × Bool × Bool × Bool) := do
  emit .patchesRun
  clear_command_cache
  let conf ← getConf
  if confTruthy conf "release_bench" then
    throwE (.sysExit 1)
  else do
    let fl : Bool × Bool × Bool × Bool :=
      if !(a.pull || a.patch || a.build || a.requirements) then
        (true, true, true, true)
      else (a.pull, a.patch, a.build, a.requirements)
    validate_branch env
    whenB env.isMajorUpgrade
      (if a.force then pure ()
       else if env.operatorConfirms then pure () else throwE .clickAbort)
    whenB (!a.reset && confTruthy conf "shallow_clone")
      (emit .pausedForShallowWarning)
    whenB (env.isMajorUpgrade || (!env.isMajorUpgrade && a.force))
      (validate_upgrade env env.toVer)
    pure fl

/-- Lines 199-200 of `update`: enter the maintenance window —
`conf.update({"maintenance_mode": 1, "pause_scheduler": 1})` followed by
`update_config(conf)`. -/
def update_enter_maintenance : UpdM Unit := do
  confUpdateStep [("maintenance_mode", 1), ("pause_scheduler", 1)]
  emit .confPersist

/-- Lines 202-240 of `update`: the conditional stages between entering
and leaving the maintenance window. -/
def update_stages (env : Env) (a : UpdateArgs)
    (pull patch build requirements : Bool) : UpdM Unit := do
  whenB a.backup (backup_all_sites env)
  whenB pull (pull_apps env (resolveAppsArg a.apps a.pull) a.reset)
  whenB requirements (do
    update_requirements env
    update_node_packages env)
  whenB patch (patch_sites env)
  whenB build (build_assets env none)
  whenB (env.isMajorUpgrade || (!env.isMajorUpgrade && a.force)) post_upgrade
  whenB (pull && a.compilePy) (emit .compiledPy)
  let conf ← getConf
  whenB (a.restartSupervisorFlag || confTruthy conf "restart_supervisor_on_update")
    (emit .restartSupervisor)
  let conf2 ← getConf
  whenB (a.restartSystemdFlag || confTruthy conf2 "restart_systemd_on_update")
    (emit .restartSystemd)

/-- Lines 242-243 of `update`: leave the maintenance window —
`conf.update({"maintenance_mode": 0, "pause_scheduler": 0})` followed by
`update_config(conf)`. -/
def update_exit_maintenance : UpdM Unit := do
  confUpdateStep [("maintenance_mode", 0), ("pause_scheduler", 0)]
  emit .confPersist

/-- `update(...)` (lines 149-245): the whole orchestration.  Note that no
`try/finally` protects the maintenance window: an abnormal exit inside
`update_stages` skips `update_exit_maintenance`. -/
def update (env : Env) (a : UpdateArgs) : UpdM Unit := do
  let fl ← update_preflight env a
  update_enter_maintenance
  update_stages env a fl.1 fl.2.1 fl.2.2.1 fl.2.2.2
  update_exit_maintenance

/-! ## Running the monad: unfolding equations -/

@[simp] theorem bind_eq {α β : Type} (x : UpdM α) (f : α → UpdM β) :
    x >>= f = UpdM.bind x f := rfl

@[simp] theorem pure_eq {α : Type} (a : α) :
    (pure a : UpdM α) = fun s => (.ok a, s) := rfl

theorem run_bind_ok {α β : Type} {x : UpdM α} {f : α → UpdM β} {s s₁ : St}
    {a : α} (h : x s = (.ok a, s₁)) : (x >>= f) s = f a s₁ := by
  show UpdM.bind x f s = f a s₁
  unfold UpdM.bind
  rw [h]

theorem run_bind_error {α β : Type} {x : UpdM α} {f : α → UpdM β} {s s₁ : St}
    {e : Err} (h : x s = (.error e, s₁)) : (x >>= f) s = (.error e, s₁) := by
  show UpdM.bind x f s = (.error e, s₁)
  unfold UpdM.bind
  rw [h]

/-- Inversion of a successful `bind`. -/
theorem bind_ok_inv {α β : Type} {x : UpdM α} {f : α → UpdM β} {s s' : St}
    {b : β} (h : (x >>= f) s = (.ok b, s')) :
    ∃ a s₁, x s = (.ok a, s₁) ∧ f a s₁ = (.ok b, s') := by
  rcases hx : x s with ⟨r, s₁⟩
  cases r with
  | ok a =>
      refine ⟨a, s₁, rfl, ?_⟩
      rw [run_bind_ok hx] at h
      exact h
  | error e =>
      rw [run_bind_error hx] at h
      cases h

/-! ## Trace extension: every step only appends to the event trace -/

/-- `StepsP Q x`: running `x` from any state appends a block of events,
each satisfying `Q`, to the trace — regardless of whether `x` succeeds. -/
def StepsP (Q : Eff → Prop) {α : Type} (x : UpdM α) : Prop :=
  ∀ s : St, ∃ l, ((x s).2).trace = s.trace ++ l ∧ ∀ e ∈ l, Q e

theorem stepsP_pure {Q : Eff → Prop} {α : Type} (a : α) :
    StepsP Q (pure a : UpdM α) :=
  fun s => ⟨[], by simp, by simp⟩

theorem stepsP_throwE {Q : Eff → Prop} {α : Type} (e : Err) :
    StepsP Q (throwE e : UpdM α) :=
  fun s => ⟨[], by simp [throwE], by simp⟩

theorem stepsP_getConf {Q : Eff → Prop} : StepsP Q getConf :=
  fun s => ⟨[], by simp [getConf], by simp⟩

theorem stepsP_emit {Q : Eff → Prop} {e : Eff} (h : Q e) :
    StepsP Q (emit e) :=
  fun s => ⟨[e], by simp [emit], by simpa⟩

theorem stepsP_confUpdateStep {Q : Eff → Prop} {kvs : List (String × Int)}
    (h : Q (.confUpdate kvs)) : StepsP Q (confUpdateStep kvs) :=
  fun s => ⟨[.confUpdate kvs], by simp [confUpdateStep], by simpa⟩

theorem stepsP_clear_command_cache {Q : Eff → Prop}
    (h1 : Q .cacheRemoved) (h2 : Q .noCacheMsg) :
    StepsP Q clear_command_cache := by
  intro s
  by_cases hc : s.cacheExists
  · exact ⟨[.cacheRemoved], by simp [clear_command_cache, hc], by simpa⟩
  · exact ⟨[.noCacheMsg], by simp [clear_command_cache, hc], by simpa⟩

theorem stepsP_bind {Q : Eff → Prop} {α β : Type} {x : UpdM α}
    {f : α → UpdM β} (hx : StepsP Q x) (hf : ∀ a, StepsP Q (f a)) :
    StepsP Q (x >>= f) := by
  intro s
  rcases hxs : x s with ⟨r, s₁⟩
  obtain ⟨l1, e1, q1⟩ := hx s
  rw [hxs] at e1
  cases r with
  | ok a =>
      obtain ⟨l2, e2, q2⟩ := hf a s₁
      refine ⟨l1 ++ l2, ?_, ?_⟩
      · rw [run_bind_ok hxs, e2, e1, List.append_assoc]
      · intro e he
        rcases List.mem_append.1 he with h | h
        · exact q1 e h
        · exact q2 e h
  | error er =>
      refine ⟨l1, ?_, q1⟩
      rw [run_bind_error hxs]
      exact e1

theorem stepsP_ite {Q : Eff → Prop} {α : Type} {c : Prop} [Decidable c]
    {x y : UpdM α} (hx : StepsP Q x) (hy : StepsP Q y) :
    StepsP Q (if c then x else y) := by
  by_cases h : c <;> simp [h, hx, hy]

theorem stepsP_mForEach {Q : Eff → Prop} {α : Type} {f : α → UpdM Unit}
    (hf : ∀ a, StepsP Q (f a)) (l : List α) : StepsP Q (mForEach f l) := by
  induction l with
  | nil => exact stepsP_pure ()
  | cons x xs ih => exact stepsP_bind (hf x) (fun _ => ih)

theorem stepsP_tryExceptCPE {Q : Eff → Prop} {x : UpdM Unit}
    (hx : StepsP Q x) : StepsP Q (tryExceptCPE x) := by
  intro s
  obtain ⟨l, e1, q1⟩ := hx s
  rcases hxs : x s with ⟨r, s₁⟩
  rw [hxs] at e1
  refine ⟨l, ?_, q1⟩
  match r, hxs with
  | .ok a, hxs => simp [tryExceptCPE, hxs]; exact e1
  | .error .calledProcessError, hxs => simp [tryExceptCPE, hxs]; exact e1
  | .error .patchError, hxs => simp [tryExceptCPE, hxs]; exact e1
  | .error (.sysExit c), hxs => simp [tryExceptCPE, hxs]; exact e1
  | .error .clickAbort, hxs => simp [tryExceptCPE, hxs]; exact e1
  | .error (.exc m), hxs => simp [tryExceptCPE, hxs]; exact e1
  | .error .typeError, hxs => simp [tryExceptCPE, hxs]; exact e1
  | .error .attrError, hxs => simp [tryExceptCPE, hxs]; exact e1

/-- Discriminator for configuration-writing events. -/
def isConfUpdate : Eff → Bool
  | .confUpdate _ => true
  | _ => false

/-- Most predicates below are given by this hypothesis: `Q` holds of every
event that is not a `conf.update`.  Every component other than the two
maintenance-window brackets emits only such events. -/
def NonConfOK (Q : Eff → Prop) : Prop :=
  ∀ e, isConfUpdate e = false → Q e

theorem stepsP_whenB {Q : Eff → Prop} {c : Bool} {x : UpdM Unit}
    (hx : StepsP Q x) : StepsP Q (whenB c x) := by
  unfold whenB
  exact stepsP_ite hx (stepsP_pure _)

theorem stepsP_exec_cmd {Q : Eff → Prop} (hQ : NonConfOK Q) (env : Env)
    (cmd cwd : String) : StepsP Q (exec_cmd env cmd cwd) := by
  unfold exec_cmd
  refine stepsP_bind ?_ fun _ => ?_
  · exact stepsP_emit (hQ _ rfl)
  refine stepsP_bind ?_ fun _ => ?_
  · exact stepsP_emit (hQ _ rfl)
  refine stepsP_bind ?_ fun _ => ?_
  · exact stepsP_whenB (stepsP_emit (hQ _ rfl))
  exact stepsP_pure _

theorem stepsP_run_frappe_cmd {Q : Eff → Prop} (hQ : NonConfOK Q) (env : Env)
    (args : List String) : StepsP Q (run_frappe_cmd env args) := by
  unfold run_frappe_cmd
  exact stepsP_bind (stepsP_emit (hQ _ rfl)) fun _ =>
    stepsP_ite (stepsP_throwE _) (stepsP_pure _)

theorem stepsP_backup_all_sites {Q : Eff → Prop} (hQ : NonConfOK Q)
    (env : Env) : StepsP Q (backup_all_sites env) :=
  stepsP_mForEach (fun _ => stepsP_run_frappe_cmd hQ env _) env.sites

theorem stepsP_patch_sites {Q : Eff → Prop} (hQ : NonConfOK Q) (env : Env) :
    StepsP Q (patch_sites env) := by
  unfold patch_sites
  induction env.sites with
  | nil => exact stepsP_pure ()
  | cons site rest ih =>
      exact stepsP_bind
        (stepsP_tryExceptCPE (stepsP_run_frappe_cmd hQ env _)) fun _ => ih

theorem stepsP_build_assets {Q : Eff → Prop} (hQ : NonConfOK Q) (env : Env)
    (app : Option String) : StepsP Q (build_assets env app) := by
  unfold build_assets
  exact stepsP_bind (stepsP_exec_cmd hQ env _ _) fun _ => stepsP_pure _

theorem stepsP_pull_apps {Q : Eff → Prop} (hQ : NonConfOK Q) (env : Env)
    (apps : List String) (reset : Bool) : StepsP Q (pull_apps env apps reset) :=
  stepsP_emit (hQ _ rfl)

theorem stepsP_validate_branch {Q : Eff → Prop} (env : Env) :
    StepsP Q (validate_branch env) := by
  unfold validate_branch
  exact stepsP_ite (stepsP_pure _) (stepsP_throwE _)

theorem stepsP_install_app {Q : Eff → Prop} (hQ : NonConfOK Q) (app : String) :
    StepsP Q (install_app app) := by
  unfold install_app
  exact stepsP_emit (hQ _ rfl)

theorem stepsP_update_requirements {Q : Eff → Prop} (hQ : NonConfOK Q)
    (env : Env) : StepsP Q (update_requirements env) := by
  unfold update_requirements update_env_pip
  refine stepsP_bind ?_ fun _ => ?_
  · refine stepsP_bind ?_ fun _ => ?_
    · exact stepsP_emit (hQ _ rfl)
    refine stepsP_bind ?_ fun _ => ?_
    · exact stepsP_exec_cmd hQ env _ _
    exact stepsP_pure _
  exact stepsP_mForEach (stepsP_install_app hQ) _

theorem stepsP_update_node_packages {Q : Eff → Prop} (hQ : NonConfOK Q)
    (env : Env) : StepsP Q (update_node_packages env) := by
  unfold update_node_packages
  rcases update_node_packages_choice env.frappeDevVersion with e | b
  · exact stepsP_throwE _
  · cases b with
    | npm =>
        unfold update_npm_packages
        rcases npmMergeDocs [] env.packageJsons with e | doc
        · exact stepsP_throwE _
        · exact stepsP_bind (stepsP_emit (hQ _ rfl)) fun _ =>
            stepsP_bind (stepsP_exec_cmd hQ env _ _) fun _ => stepsP_pure _
    | yarn =>
        unfold update_yarn_packages
        exact stepsP_ite (stepsP_emit (hQ _ rfl))
          (stepsP_mForEach
            (fun app => stepsP_ite
              (stepsP_bind (stepsP_exec_cmd hQ env _ _) fun _ => stepsP_pure _)
              (stepsP_pure _)) _)

theorem stepsP_validate_upgrade {Q : Eff → Prop} (env : Env) (v : Int) :
    StepsP Q (validate_upgrade env v) := by
  unfold validate_upgrade
  exact stepsP_ite (stepsP_ite (stepsP_throwE _) (stepsP_pure _)) (stepsP_pure _)

theorem stepsP_post_upgrade {Q : Eff → Prop} (hQ : NonConfOK Q) :
    StepsP Q post_upgrade := by
  unfold post_upgrade
  exact stepsP_bind stepsP_getConf fun conf =>
    stepsP_ite (stepsP_emit (hQ _ rfl)) (stepsP_pure _)

theorem stepsP_update_preflight {Q : Eff → Prop} (hQ : NonConfOK Q)
    (env : Env) (a : UpdateArgs) : StepsP Q (update_preflight env a) := by
  unfold update_preflight
  refine stepsP_bind ?_ fun _ => ?_
  · exact stepsP_emit (hQ _ rfl)
  refine stepsP_bind ?_ fun _ => ?_
  · exact stepsP_clear_command_cache (hQ _ rfl) (hQ _ rfl)
  refine stepsP_bind ?_ fun conf => ?_
  · exact stepsP_getConf
  refine stepsP_ite ?_ ?_
  · exact stepsP_throwE _
  refine stepsP_bind ?_ fun _ => ?_
  · exact stepsP_validate_branch env
  refine stepsP_bind ?_ fun _ => ?_
  · exact stepsP_whenB
      (stepsP_ite (stepsP_pure _) (stepsP_ite (stepsP_pure _) (stepsP_throwE _)))
  refine stepsP_bind ?_ fun _ => ?_
  · exact stepsP_whenB (stepsP_emit (hQ _ rfl))
  refine stepsP_bind ?_ fun _ => ?_
  · exact stepsP_whenB (stepsP_validate_upgrade env _)
  exact stepsP_pure _

theorem stepsP_update_stages {Q : Eff → Prop} (hQ : NonConfOK Q) (env : Env)
    (a : UpdateArgs) (pull patch build requirements : Bool) :
    StepsP Q (update_stages env a pull patch build requirements) := by
  unfold update_stages
  refine stepsP_bind ?_ fun _ => ?_
  · exact stepsP_whenB (stepsP_backup_all_sites hQ env)
  refine stepsP_bind ?_ fun _ => ?_
  · refine stepsP_whenB ?_
    exact stepsP_pull_apps hQ env _ _
  refine stepsP_bind ?_ fun _ => ?_
  · refine stepsP_whenB ?_
    refine stepsP_bind ?_ fun _ => ?_
    · exact stepsP_update_requirements hQ env
    exact stepsP_update_node_packages hQ env
  refine stepsP_bind ?_ fun _ => ?_
  · exact stepsP_whenB (stepsP_patch_sites hQ env)
  refine stepsP_bind ?_ fun _ => ?_
  · exact stepsP_whenB (stepsP_build_assets hQ env none)
  refine stepsP_bind ?_ fun _ => ?_
  · exact stepsP_whenB (stepsP_post_upgrade hQ)
  refine stepsP_bind ?_ fun _ => ?_
  · exact stepsP_whenB (stepsP_emit (hQ _ rfl))
  refine stepsP_bind ?_ fun conf => ?_
  · exact stepsP_getConf
  refine stepsP_bind ?_ fun _ => ?_
  · exact stepsP_whenB (stepsP_emit (hQ _ rfl))
  refine stepsP_bind ?_ fun conf2 => ?_
  · exact stepsP_getConf
  exact stepsP_whenB (stepsP_emit (hQ _ rfl))

/-! ## Configuration frame: only the maintenance brackets write `conf` -/

/-- `ConfSame x`: running `x` leaves the configuration document unchanged,
whether or not `x` terminates normally. -/
def ConfSame {α : Type} (x : UpdM α) : Prop :=
  ∀ s : St, ((x s).2).conf = s.conf

theorem confSame_pure {α : Type} (a : α) : ConfSame (pure a : UpdM α) :=
  fun _ => rfl

theorem confSame_throwE {α : Type} (e : Err) : ConfSame (throwE e : UpdM α) :=
  fun _ => rfl

theorem confSame_getConf : ConfSame getConf := fun _ => rfl

theorem confSame_emit (e : Eff) : ConfSame (emit e) := fun _ => rfl

theorem confSame_clear_command_cache : ConfSame clear_command_cache := by
  intro s
  by_cases hc : s.cacheExists <;> simp [clear_command_cache, hc]

theorem confSame_bind {α β : Type} {x : UpdM α} {f : α → UpdM β}
    (hx : ConfSame x) (hf : ∀ a, ConfSame (f a)) : ConfSame (x >>= f) := by
  intro s
  rcases hxs : x s with ⟨r, s₁⟩
  have h1 : s₁.conf = s.conf := by
    have := hx s
    rw [hxs] at this
    exact this
  cases r with
  | ok a => rw [run_bind_ok hxs, hf a s₁, h1]
  | error e => rw [run_bind_error hxs]; exact h1

theorem confSame_ite {α : Type} {c : Prop} [Decidable c] {x y : UpdM α}
    (hx : ConfSame x) (hy : ConfSame y) : ConfSame (if c then x else y) := by
  by_cases h : c <;> simp [h, hx, hy]

theorem confSame_whenB {c : Bool} {x : UpdM Unit} (hx : ConfSame x) :
    ConfSame (whenB c x) := by
  unfold whenB
  exact confSame_ite hx (confSame_pure _)

theorem confSame_mForEach {α : Type} {f : α → UpdM Unit}
    (hf : ∀ a, ConfSame (f a)) (l : List α) : ConfSame (mForEach f l) := by
  induction l with
  | nil => exact confSame_pure ()
  | cons x xs ih => exact confSame_bind (hf x) (fun _ => ih)

theorem confSame_tryExceptCPE {x : UpdM Unit} (hx : ConfSame x) :
    ConfSame (tryExceptCPE x) := by
  intro s
  have h1 := hx s
  rcases hxs : x s with ⟨r, s₁⟩
  rw [hxs] at h1
  match r, hxs with
  | .ok a, hxs => simp [tryExceptCPE, hxs]; exact h1
  | .error .calledProcessError, hxs => simp [tryExceptCPE, hxs]; exact h1
  | .error .patchError, hxs => simp [tryExceptCPE, hxs]; exact h1
  | .error (.sysExit c), hxs => simp [tryExceptCPE, hxs]; exact h1
  | .error .clickAbort, hxs => simp [tryExceptCPE, hxs]; exact h1
  | .error (.exc m), hxs => simp [tryExceptCPE, hxs]; exact h1
  | .error .typeError, hxs => simp [tryExceptCPE, hxs]; exact h1
  | .error .attrError, hxs => simp [tryExceptCPE, hxs]; exact h1

theorem confSame_exec_cmd (env : Env) (cmd cwd : String) :
    ConfSame (exec_cmd env cmd cwd) := by
  unfold exec_cmd
  refine confSame_bind (confSame_emit _) fun _ => ?_
  refine confSame_bind (confSame_emit _) fun _ => ?_
  refine confSame_bind ?_ fun _ => confSame_pure _
  exact confSame_whenB (confSame_emit _)

theorem confSame_run_frappe_cmd (env : Env) (args : List String) :
    ConfSame (run_frappe_cmd env args) := by
  unfold run_frappe_cmd
  refine confSame_bind (confSame_emit _) fun _ => ?_
  exact confSame_ite (confSame_throwE _) (confSame_pure _)

theorem confSame_backup_all_sites (env : Env) :
    ConfSame (backup_all_sites env) :=
  confSame_mForEach (fun _ => confSame_run_frappe_cmd env _) env.sites

theorem confSame_patch_sites (env : Env) : ConfSame (patch_sites env) := by
  unfold patch_sites
  induction env.sites with
  | nil => exact confSame_pure ()
  | cons s rest ih =>
      exact confSame_bind
        (confSame_tryExceptCPE (confSame_run_frappe_cmd env _)) fun _ => ih

theorem confSame_build_assets (env : Env) (app : Option String) :
    ConfSame (build_assets env app) := by
  unfold build_assets
  exact confSame_bind (confSame_exec_cmd env _ _) fun _ => confSame_pure _

theorem confSame_pull_apps (env : Env) (apps : List String) (reset : Bool) :
    ConfSame (pull_apps env apps reset) :=
  confSame_emit _

theorem confSame_validate_branch (env : Env) : ConfSame (validate_branch env) := by
  unfold validate_branch
  exact confSame_ite (confSame_pure _) (confSame_throwE _)

theorem confSame_install_app (app : String) : ConfSame (install_app app) :=
  confSame_emit _

theorem confSame_update_requirements (env : Env) :
    ConfSame (update_requirements env) := by
  unfold update_requirements update_env_pip
  refine confSame_bind ?_ fun _ => confSame_mForEach confSame_install_app _
  refine confSame_bind (confSame_emit _) fun _ => ?_
  exact confSame_bind (confSame_exec_cmd env _ _) fun _ => confSame_pure _

theorem confSame_update_node_packages (env : Env) :
    ConfSame (update_node_packages env) := by
  unfold update_node_packages
  rcases update_node_packages_choice env.frappeDevVersion with e | b
  · exact confSame_throwE _
  · cases b with
    | npm =>
        unfold update_npm_packages
        rcases npmMergeDocs [] env.packageJsons with e | doc
        · exact confSame_throwE _
        · refine confSame_bind (confSame_emit _) fun _ => ?_
          exact confSame_bind (confSame_exec_cmd env _ _) fun _ => confSame_pure _
    | yarn =>
        unfold update_yarn_packages
        refine confSame_ite (confSame_emit _) ?_
        refine confSame_mForEach (fun app => ?_) _
        refine confSame_ite ?_ (confSame_pure _)
        exact confSame_bind (confSame_exec_cmd env _ _) fun _ => confSame_pure _

theorem confSame_validate_upgrade (env : Env) (v : Int) :
    ConfSame (validate_upgrade env v) := by
  unfold validate_upgrade
  exact confSame_ite (confSame_ite (confSame_throwE _) (confSame_pure _))
    (confSame_pure _)

theorem confSame_post_upgrade : ConfSame post_upgrade := by
  unfold post_upgrade
  refine confSame_bind confSame_getConf fun conf => ?_
  exact confSame_ite (confSame_emit _) (confSame_pure _)

theorem confSame_update_preflight (env : Env) (a : UpdateArgs) :
    ConfSame (update_preflight env a) := by
  unfold update_preflight
  refine confSame_bind (confSame_emit _) fun _ => ?_
  refine confSame_bind confSame_clear_command_cache fun _ => ?_
  refine confSame_bind confSame_getConf fun conf => ?_
  refine confSame_ite (confSame_throwE _) ?_
  refine confSame_bind (confSame_validate_branch env) fun _ => ?_
  refine confSame_bind (confSame_whenB (confSame_ite (confSame_pure _)
    (confSame_ite (confSame_pure _) (confSame_throwE _)))) fun _ => ?_
  refine confSame_bind (confSame_whenB (confSame_emit _)) fun _ => ?_
  refine confSame_bind (confSame_whenB (confSame_validate_upgrade env _))
    fun _ => ?_
  exact confSame_pure _

theorem confSame_update_stages (env : Env) (a : UpdateArgs)
    (pull patch build requirements : Bool) :
    ConfSame (update_stages env a pull patch build requirements) := by
  unfold update_stages
  refine confSame_bind (confSame_whenB (confSame_backup_all_sites env))
    fun _ => ?_
  refine confSame_bind (confSame_whenB (confSame_pull_apps env _ _))
    fun _ => ?_
  refine confSame_bind (confSame_whenB
    (confSame_bind (confSame_update_requirements env)
      fun _ => confSame_update_node_packages env)) fun _ => ?_
  refine confSame_bind (confSame_whenB (confSame_patch_sites env)) fun _ => ?_
  refine confSame_bind (confSame_whenB (confSame_build_assets env none))
    fun _ => ?_
  refine confSame_bind (confSame_whenB confSame_post_upgrade) fun _ => ?_
  refine confSame_bind (confSame_whenB (confSame_emit _)) fun _ => ?_
  refine confSame_bind confSame_getConf fun conf => ?_
  refine confSame_bind (confSame_whenB (confSame_emit _)) fun _ => ?_
  refine confSame_bind confSame_getConf fun conf2 => ?_
  exact confSame_whenB (confSame_emit _)

theorem stepsP_update {Q : Eff → Prop} (hQ : NonConfOK Q)
    (hEnter : Q (.confUpdate [("maintenance_mode", 1), ("pause_scheduler", 1)]))
    (hLeave : Q (.confUpdate [("maintenance_mode", 0), ("pause_scheduler", 0)]))
    (env : Env) (a : UpdateArgs) : StepsP Q (update env a) := by
  unfold update update_enter_maintenance update_exit_maintenance
  refine stepsP_bind ?_ fun fl => ?_
  · exact stepsP_update_preflight hQ env a
  refine stepsP_bind ?_ fun _ => ?_
  · refine stepsP_bind ?_ fun _ => ?_
    · exact stepsP_confUpdateStep hEnter
    exact stepsP_emit (hQ _ rfl)
  refine stepsP_bind ?_ fun _ => ?_
  · exact stepsP_update_stages hQ env a _ _ _ _
  refine stepsP_bind ?_ fun _ => ?_
  · exact stepsP_confUpdateStep hLeave
  exact stepsP_emit (hQ _ rfl)

/-! ## Concrete fixtures shared by the concrete-run theorems -/

/-- A fresh bench state: empty configuration, no command-cache file, empty
trace. -/
def st0 : St := { conf := [], cacheExists := false, trace := [] }

/-- A benign environment: one site, one app, no version upgrade, every
external command succeeding. -/
def baseEnv : Env :=
  { benchPath := "/home/frappe/bench", sites := ["site1.local"],
    installedApps := ["frappe"], branchValid := true, isMajorUpgrade := false,
    fromVer := 11, toVer := 11, operatorConfirms := true, hasNpm := true,
    hasNode := true, hasNodejs := false, hasYarn := true,
    frappeDevVersion := "10.9.0-develop", appsDirList := ["frappe"],
    hasPackageJson := fun _ => false, packageJsons := [],
    frappeCode := fun _ => 0, execCode := fun _ => 0 }

/-! ## C9: configuration updates preserve unlisted keys -/

/-- C9 (confirmed): for every existing configuration file and every
partial key-value map, `update_common_site_config` (via
`update_json_file`) leaves every key not present in the partial map bound
to its previous value — only the keys of the partial map change. -/
theorem update_common_site_config_preserves_other_keys
    (content ddict : List (String × JValue)) (k : String)
    (h : dget ddict k = none) :
    dget (update_common_site_config true content ddict) k = dget content k := by
  unfold update_common_site_config update_json_file
  simpa using dget_dUpdate_of_not_mem ddict content k h

/-- C9 witness: a two-key document updated with a one-key partial map
keeps the untouched key. -/
theorem update_common_site_config_preserves_other_keys_witness :
    dget (update_common_site_config true
        [("db_host", JValue.str "localhost"), ("maintenance_mode", JValue.num 0)]
        [("maintenance_mode", JValue.num 1)]) "db_host"
      = dget [("db_host", JValue.str "localhost"),
              ("maintenance_mode", JValue.num 0)] "db_host" :=
  update_common_site_config_preserves_other_keys _ _ "db_host" rfl

/-! ## C6: the legacy package.json merge -/

/-- C6 (confirmed): the merge loop of `update_npm_packages` inserts new
keys, merges dict values with `dict.update`, concatenates list values,
overwrites with scalar values, and on the two documents named by the spec
produces the merged manifest the spec states. -/
theorem update_npm_packages_merge_spec :
    (∀ acc k v, dget acc k = none →
        npmMergeItem acc (k, v) = .ok (dset acc k v))
  ∧ (∀ acc k df1 df2, dget acc k = some (.obj df1) →
        npmMergeItem acc (k, .obj df2) = .ok (dset acc k (.obj (dUpdate df1 df2))))
  ∧ (∀ acc k l1 l2, dget acc k = some (.arr l1) →
        npmMergeItem acc (k, .arr l2) = .ok (dset acc k (.arr (l1 ++ l2))))
  ∧ (∀ acc k old sv, dget acc k = some old →
        npmMergeItem acc (k, .str sv) = .ok (dset acc k (.str sv)))
  ∧ npmMergeDocs []
      [[("dependencies", .obj [("a", .str "1")]), ("scripts", .arr [.str "build"])],
       [("dependencies", .obj [("b", .str "2")]), ("scripts", .arr [.str "test"])]]
      = .ok [("dependencies", .obj [("a", .str "1"), ("b", .str "2")]),
             ("scripts", .arr [.str "build", .str "test"])] := by
  refine ⟨?_, ?_, ?_, ?_, rfl⟩
  · intro acc k v h
    unfold npmMergeItem
    rw [show (k, v).1 = k from rfl, h]
  · intro acc k df1 df2 h
    unfold npmMergeItem
    rw [show (k, JValue.obj df2).1 = k from rfl, h]
  · intro acc k l1 l2 h
    unfold npmMergeItem
    rw [show (k, JValue.arr l2).1 = k from rfl, h]
  · intro acc k old sv h
    unfold npmMergeItem
    rw [show (k, JValue.str sv).1 = k from rfl, h]

/-- C6 witness: the new-key rule applied at a concrete input. -/
theorem update_npm_packages_merge_spec_witness :
    npmMergeItem [] ("dependencies", JValue.obj [("a", JValue.str "1")])
      = .ok [("dependencies", JValue.obj [("a", JValue.str "1")])] :=
  update_npm_packages_merge_spec.1 [] "dependencies" _ rfl

/-! ## C5: node-package backend selection by version threshold -/

/-- C5 (code_bug): `10.9.0-develop` selects the legacy npm backend as the
spec states, but `11.0.0-develop` does not select the yarn backend — the
`LooseVersion` comparison against `11.x.x-develop` compares the integer
component `0` with the string component `x` and raises `TypeError`
(Python 3), crashing `update_node_packages`; only the literal
`11.x.x-develop` itself and versions with a different major (e.g.
`12.0.1-develop`) reach the yarn branch. -/
theorem update_node_packages_choice_versions :
    update_node_packages_choice "10.9.0-develop" = .ok .npm
  ∧ update_node_packages_choice "11.0.0-develop" = .error .typeError
  ∧ update_node_packages_choice "11.x.x-develop" = .ok .yarn
  ∧ update_node_packages_choice "12.0.1-develop" = .ok .yarn :=
  ⟨rfl, rfl, rfl, rfl⟩

/-! ## C3: fail-fast migration, but via SystemExit rather than PatchError -/

/-- An installation whose first site fails to migrate. -/
def envMigrFail : Env :=
  { baseEnv with
    sites := ["alpha.local", "beta.local"],
    frappeCode := fun args =>
      if args = ["--site", "alpha.local", "migrate"] then 1 else 0 }

/-- C3 (code_bug): when migrating site 1 of 2 fails, the later site is
never invoked (fail-fast holds), but the surfaced error is the
`sys.exit(return_code)` inside `run_frappe_cmd` — a `SystemExit`, not the
`PatchError` that the `except CalledProcessError` handler in
`patch_sites` was written to raise (that handler is unreachable because
`run_frappe_cmd` never raises `CalledProcessError`). -/
theorem patch_sites_failfast_but_sysExit :
    (patch_sites envMigrFail st0).1 = .error (.sysExit 1)
  ∧ (patch_sites envMigrFail st0).1 ≠ .error .patchError
  ∧ Eff.frappeCmd ["--site", "alpha.local", "migrate"]
      ∈ ((patch_sites envMigrFail st0).2).trace
  ∧ Eff.frappeCmd ["--site", "beta.local", "migrate"]
      ∉ ((patch_sites envMigrFail st0).2).trace := by
  refine ⟨rfl, ?_, by decide, by decide⟩
  intro h
  rw [show (patch_sites envMigrFail st0).1 = Except.error (Err.sysExit 1)
    from rfl] at h
  simp at h

/-! ## C8: exec_cmd echoes, warns, and returns None -/

/-- An environment where `bench build` exits with code 2. -/
def envExecFail : Env :=
  { baseEnv with execCode := fun c => if c = "bench build" then 2 else 0 }

/-- C8 counterexample: with the child exiting 2, `exec_cmd` evaluates to
`None` — the exit code is not returned to the caller (the Python function
has no `return` statement). -/
theorem exec_cmd_does_not_return_exit_code :
    (exec_cmd envExecFail "bench build" "." st0).1 = .ok none
  ∧ (exec_cmd envExecFail "bench build" "." st0).1 ≠ .ok (some 2) := by
  refine ⟨rfl, ?_⟩
  intro h
  rw [show (exec_cmd envExecFail "bench build" "." st0).1
    = Except.ok (none : Option Int) from rfl] at h
  simp at h

/-- C8 (corrected): `exec_cmd` writes the diagnostic line containing the
command text before the execution event, logs a warning (instead of
raising) exactly when the exit code is non-zero, and always evaluates to
`None` — it does not return the exit code. -/
theorem exec_cmd_echoes_warns_returns_none (env : Env) (cmd cwd : String)
    (s : St) :
    (exec_cmd env cmd cwd s).1 = .ok none
  ∧ ((exec_cmd env cmd cwd s).2).conf = s.conf
  ∧ ((exec_cmd env cmd cwd s).2).trace
      = s.trace ++ [Eff.echo ("$ " ++ cmd), Eff.runCmd cmd]
        ++ (if env.execCode cmd = 0 then []
            else [Eff.warn (cmdLogOf cwd cmd ++ " executed with exit code "
                    ++ toString (env.execCode cmd))]) := by
  unfold exec_cmd whenB
  by_cases h : env.execCode cmd = 0 <;>
    simp [UpdM.bind, emit, h, List.append_assoc]

/-! ## The maintenance brackets, evaluated -/

/-- The state after `update_enter_maintenance`. -/
def maintOn (s : St) : St :=
  { s with
    conf := dUpdate s.conf [("maintenance_mode", 1), ("pause_scheduler", 1)],
    trace := s.trace ++
      [Eff.confUpdate [("maintenance_mode", 1), ("pause_scheduler", 1)],
       Eff.confPersist] }

/-- The state after `update_exit_maintenance`. -/
def maintOff (s : St) : St :=
  { s with
    conf := dUpdate s.conf [("maintenance_mode", 0), ("pause_scheduler", 0)],
    trace := s.trace ++
      [Eff.confUpdate [("maintenance_mode", 0), ("pause_scheduler", 0)],
       Eff.confPersist] }

theorem run_enter (s : St) : update_enter_maintenance s = (.ok (), maintOn s) := by
  unfold update_enter_maintenance maintOn
  simp [UpdM.bind, confUpdateStep, emit]

theorem run_exit (s : St) : update_exit_maintenance s = (.ok (), maintOff s) := by
  unfold update_exit_maintenance maintOff
  simp [UpdM.bind, confUpdateStep, emit]

/-- Writing the flag pair into any configuration makes
`maintenance_mode` readable back. -/
theorem dget_pair_mm (c : List (String × Int)) (v : Int) :
    dget (dUpdate c [("maintenance_mode", v), ("pause_scheduler", v)])
      "maintenance_mode" = some v := by
  show dget (dset (dset c "maintenance_mode" v) "pause_scheduler" v)
    "maintenance_mode" = some v
  rw [dget_dset_ne _ _ (by decide), dget_dset_self]

/-- Writing the flag pair into any configuration makes
`pause_scheduler` readable back. -/
theorem dget_pair_ps (c : List (String × Int)) (v : Int) :
    dget (dUpdate c [("maintenance_mode", v), ("pause_scheduler", v)])
      "pause_scheduler" = some v := by
  show dget (dset (dset c "maintenance_mode" v) "pause_scheduler" v)
    "pause_scheduler" = some v
  rw [dget_dset_self]

/-! ## C1: does flag-clearing run on every exit path? -/

/-- An installation whose single site fails to migrate, with otherwise
benign surroundings. -/
def envC1 : Env :=
  { baseEnv with
    frappeCode := fun args =>
      if args = ["--site", "site1.local", "migrate"] then 1 else 0 }

/-- C1 counterexample: a default `bench update` run on `envC1` reaches the
maintenance-entry step, fails in the patch stage, and terminates by
process exit with the clearing step never executed — both flags are left
set to 1. -/
theorem update_patch_failure_skips_flag_clearing :
    (update envC1 UpdateArgs.default st0).1 = .error (.sysExit 1)
  ∧ Eff.confUpdate [("maintenance_mode", 1), ("pause_scheduler", 1)]
      ∈ ((update envC1 UpdateArgs.default st0).2).trace
  ∧ Eff.confUpdate [("maintenance_mode", 0), ("pause_scheduler", 0)]
      ∉ ((update envC1 UpdateArgs.default st0).2).trace
  ∧ dget ((update envC1 UpdateArgs.default st0).2).conf "maintenance_mode"
      = some 1
  ∧ dget ((update envC1 UpdateArgs.default st0).2).conf "pause_scheduler"
      = some 1 :=
  ⟨rfl, by decide, by decide, rfl, rfl⟩

/-- C1 (corrected): the flag-clearing step runs on the exit path of every
run of the orchestration that terminates normally, leaving both flags 0;
it does not run on the site-migration failure path (see the
counterexample), because no `try/finally` protects the maintenance
window. -/
theorem update_ok_clears_maintenance_flags (env : Env) (a : UpdateArgs)
    (s s' : St) (h : update env a s = (.ok (), s')) :
    Eff.confUpdate [("maintenance_mode", 0), ("pause_scheduler", 0)]
      ∈ s'.trace
  ∧ dget s'.conf "maintenance_mode" = some 0
  ∧ dget s'.conf "pause_scheduler" = some 0 := by
  unfold update at h
  obtain ⟨fl, s1, h1, h⟩ := bind_ok_inv h
  obtain ⟨u2, s2, h2, h⟩ := bind_ok_inv h
  obtain ⟨u3, s3, h3, h⟩ := bind_ok_inv h
  rw [run_exit s3] at h
  have hs : maintOff s3 = s' := congrArg Prod.snd h
  subst hs
  refine ⟨?_, dget_pair_mm _ _, dget_pair_ps _ _⟩
  simp [maintOff]

set_option maxHeartbeats 2000000 in
/-- C1 witness: the amended theorem applied to a fully successful
concrete run. -/
theorem update_ok_clears_maintenance_flags_witness :
    Eff.confUpdate [("maintenance_mode", 0), ("pause_scheduler", 0)]
      ∈ ((update baseEnv UpdateArgs.default st0).2).trace
  ∧ dget ((update baseEnv UpdateArgs.default st0).2).conf "maintenance_mode"
      = some 0
  ∧ dget ((update baseEnv UpdateArgs.default st0).2).conf "pause_scheduler"
      = some 0 :=
  update_ok_clears_maintenance_flags baseEnv UpdateArgs.default st0 _ rfl

/-! ## C2: behaviour on a release bench -/

/-- A state whose configuration flags a release bench and whose command
cache file exists. -/
def stRel : St :=
  { conf := [("release_bench", 1)], cacheExists := true, trace := [] }

/-- C2 counterexample: on a release bench the workflow does exit with
code 1, but it is not mutation-free — `clear_command_cache` runs before
the `release_bench` check and deletes the command-cache file (and the
bench patches step has also already run). -/
theorem update_release_bench_removes_cache :
    (update baseEnv UpdateArgs.default stRel).1 = .error (.sysExit 1)
  ∧ Eff.cacheRemoved ∈ ((update baseEnv UpdateArgs.default stRel).2).trace
  ∧ ((update baseEnv UpdateArgs.default stRel).2).cacheExists = false :=
  ⟨rfl, by decide, rfl⟩

/-- C2 (corrected): on every installation whose configuration has a
truthy `release_bench` flag, `update` terminates with exit code 1 and
performs no stage work and no configuration write — but only after the
bench patches step and the command-cache clearing have run, so the run is
not mutation-free. -/
theorem update_release_bench_exits_one (env : Env) (a : UpdateArgs) (s : St)
    (h : confTruthy s.conf "release_bench" = true) :
    (update env a s).1 = .error (.sysExit 1)
  ∧ ((update env a s).2).conf = s.conf
  ∧ ((update env a s).2).trace
      = s.trace ++ (if s.cacheExists then [Eff.patchesRun, Eff.cacheRemoved]
                    else [Eff.patchesRun, Eff.noCacheMsg]) := by
  unfold update update_preflight
  by_cases hc : s.cacheExists <;>
    simp [UpdM.bind, emit, clear_command_cache, getConf, throwE, hc, h]

/-- C2 witness: the corrected theorem applied to the concrete release
bench. -/
theorem update_release_bench_exits_one_witness :
    (update baseEnv UpdateArgs.default stRel).1 = .error (.sysExit 1)
  ∧ ((update baseEnv UpdateArgs.default stRel).2).conf = stRel.conf
  ∧ ((update baseEnv UpdateArgs.default stRel).2).trace
      = stRel.trace ++
        (if stRel.cacheExists then [Eff.patchesRun, Eff.cacheRemoved]
         else [Eff.patchesRun, Eff.noCacheMsg]) :=
  update_release_bench_exits_one baseEnv UpdateArgs.default stRel rfl

/-! ## C4: the two maintenance flags move in lockstep -/

/-- Helper predicate for C4: an event that is a `conf.update` binds
`maintenance_mode` and `pause_scheduler` identically. -/
def pairedConfEff (e : Eff) : Prop :=
  ∀ kvs, e = Eff.confUpdate kvs →
    dget kvs "maintenance_mode" = dget kvs "pause_scheduler"

/-- C4 (confirmed): in every run of the orchestration (whether it aborts
or completes), if the two flags agree in the starting configuration they
agree in the final configuration, and every `conf.update` event recorded
in the trace writes `maintenance_mode` and `pause_scheduler` to the same
value in the same update. -/
theorem update_flags_set_and_cleared_together (env : Env) (a : UpdateArgs)
    (s : St)
    (h1 : dget s.conf "maintenance_mode" = dget s.conf "pause_scheduler")
    (h2 : s.trace = []) :
    dget ((update env a s).2).conf "maintenance_mode"
      = dget ((update env a s).2).conf "pause_scheduler"
  ∧ ∀ kvs, Eff.confUpdate kvs ∈ ((update env a s).2).trace →
      dget kvs "maintenance_mode" = dget kvs "pause_scheduler" := by
  constructor
  · rcases hp : update_preflight env a s with ⟨r1, s1⟩
    have hc1 : s1.conf = s.conf := by
      have hcs := confSame_update_preflight env a s
      rw [hp] at hcs
      exact hcs
    cases r1 with
    | error e =>
        have hu : update env a s = (.error e, s1) := by
          unfold update
          exact run_bind_error hp
        rw [hu]
        simpa [hc1] using h1
    | ok fl =>
        have hu : update env a s
            = ((update_enter_maintenance >>= fun _ =>
                update_stages env a fl.1 fl.2.1 fl.2.2.1 fl.2.2.2 >>= fun _ =>
                update_exit_maintenance)) s1 := by
          unfold update
          exact run_bind_ok hp
        rw [run_bind_ok (run_enter s1)] at hu
        rcases hst : update_stages env a fl.1 fl.2.1 fl.2.2.1 fl.2.2.2
            (maintOn s1) with ⟨r3, s3⟩
        have hc3 : s3.conf = (maintOn s1).conf := by
          have hcs := confSame_update_stages env a fl.1 fl.2.1 fl.2.2.1 fl.2.2.2
            (maintOn s1)
          rw [hst] at hcs
          exact hcs
        cases r3 with
        | error e =>
            rw [run_bind_error hst] at hu
            rw [hu]
            simp only [hc3, maintOn]
            rw [dget_pair_mm, dget_pair_ps]
        | ok u3 =>
            rw [run_bind_ok hst, run_exit s3] at hu
            rw [hu]
            simp only [maintOff]
            rw [dget_pair_mm, dget_pair_ps]
  · have hQ : NonConfOK pairedConfEff := by
      intro e he kvs hkv
      subst hkv
      simp [isConfUpdate] at he
    have hEnter : pairedConfEff
        (.confUpdate [("maintenance_mode", 1), ("pause_scheduler", 1)]) := by
      intro kvs hk
      injection hk with h'
      subst h'
      rfl
    have hLeave : pairedConfEff
        (.confUpdate [("maintenance_mode", 0), ("pause_scheduler", 0)]) := by
      intro kvs hk
      injection hk with h'
      subst h'
      rfl
    obtain ⟨l, hl, hq⟩ := stepsP_update hQ hEnter hLeave env a s
    intro kvs hkvs
    rw [hl, h2] at hkvs
    simp only [List.nil_append] at hkvs
    exact hq _ hkvs kvs rfl

set_option maxHeartbeats 2000000 in
/-- C4 witness: the lockstep theorem applied to a concrete benign run. -/
theorem update_flags_set_and_cleared_together_witness :
    dget ((update baseEnv UpdateArgs.default st0).2).conf "maintenance_mode"
      = dget ((update baseEnv UpdateArgs.default st0).2).conf "pause_scheduler"
  ∧ ∀ kvs, Eff.confUpdate kvs ∈ ((update baseEnv UpdateArgs.default st0).2).trace →
      dget kvs "maintenance_mode" = dget kvs "pause_scheduler" :=
  update_flags_set_and_cleared_together baseEnv UpdateArgs.default st0 rfl rfl

/-! ## C7: feasibility validation precedes any flag mutation -/

/-- C7 (confirmed): when the upgrade is major or the force flag is
passed, and target major version 6+ needs a node tool chain that is
absent (`npm` missing and neither `node` nor `nodejs` found), the run
aborts with the feasibility-validation error — raised by
`validate_upgrade` before the maintenance flags are ever written: the
final configuration equals the starting one and no `conf.update` event
was recorded.  (The premises `release_bench` falsy, branch valid and
operator confirmation keep the earlier, unrelated abort paths out of the
way.) -/
theorem update_validate_aborts_before_flag_mutation (env : Env) (a : UpdateArgs)
    (s : St)
    (hrel : confTruthy s.conf "release_bench" = false)
    (hbr : env.branchValid = true)
    (hcf : env.operatorConfirms = true)
    (hmf : env.isMajorUpgrade = true ∨ a.force = true)
    (hver : 6 ≤ env.toVer)
    (hnpm : env.hasNpm = false) (hnode : env.hasNode = false)
    (hnodejs : env.hasNodejs = false)
    (htr : s.trace = []) :
    (update env a s).1 = .error (.exc "Please install nodejs and npm")
  ∧ ((update env a s).2).conf = s.conf
  ∧ ∀ kvs, Eff.confUpdate kvs ∉ ((update env a s).2).trace := by
  unfold update update_preflight validate_branch validate_upgrade whenB
    clear_command_cache
  cases hM : env.isMajorUpgrade with
  | false =>
      rcases hmf with h | hF
      · exact absurd h (by simp [hM])
      · by_cases hc : s.cacheExists <;>
          by_cases hsh : a.reset = false ∧ confTruthy s.conf "shallow_clone" = true <;>
            simp [UpdM.bind, emit, getConf, throwE, hrel, hbr, hcf, hc, hM, hF,
              hsh, hver, hnpm, hnode, hnodejs, htr]
  | true =>
      cases hF : a.force <;>
        by_cases hc : s.cacheExists <;>
          by_cases hsh : a.reset = false ∧ confTruthy s.conf "shallow_clone" = true <;>
            simp [UpdM.bind, emit, getConf, throwE, hrel, hbr, hcf, hc, hM, hF,
              hsh, hver, hnpm, hnode, hnodejs, htr]

/-- A major upgrade (11 to 12) on a host without npm, node or nodejs. -/
def envC7 : Env :=
  { baseEnv with
    isMajorUpgrade := true, toVer := 12,
    hasNpm := false, hasNode := false, hasNodejs := false }

/-- C7 witness: the theorem applied to the concrete major upgrade with
the node tool chain missing. -/
theorem update_validate_aborts_before_flag_mutation_witness :
    (update envC7 UpdateArgs.default st0).1
      = .error (.exc "Please install nodejs and npm")
  ∧ ((update envC7 UpdateArgs.default st0).2).conf = st0.conf
  ∧ ∀ kvs, Eff.confUpdate kvs ∉ ((update envC7 UpdateArgs.default st0).2).trace :=
  update_validate_aborts_before_flag_mutation envC7 UpdateArgs.default st0
    rfl rfl rfl (Or.inl rfl) (by decide) rfl rfl rfl rfl

/-! ## C10: a non-pulled apps list is discarded -/

/-- Associativity of `UpdM.bind`, applied to a state. -/
theorem run_bind_assoc {α β γ : Type} (x : UpdM α) (f : α → UpdM β)
    (g : β → UpdM γ) (s : St) :
    ((x >>= f) >>= g) s = (x >>= fun a => f a >>= g) s := by
  show UpdM.bind (UpdM.bind x f) g s = UpdM.bind x (fun a => UpdM.bind (f a) g) s
  unfold UpdM.bind
  rcases x s with ⟨r, s₁⟩
  cases r <;> rfl

/-- An event already in the trace stays in the trace after any further
computation. -/
theorem mem_trace_mono {α : Type} {x : UpdM α}
    (hx : StepsP (fun _ => True) x) {e : Eff} {s : St}
    (he : e ∈ s.trace) : e ∈ ((x s).2).trace := by
  obtain ⟨l, hl, -⟩ := hx s
  rw [hl]
  exact List.mem_append_left _ he

/-- When every site backup exits 0, the backup loop succeeds. -/
theorem mForEach_backup_ok (env : Env) (l : List String)
    (h0 : ∀ site ∈ l, env.frappeCode ["--site", site, "backup"] = 0) :
    ∀ s : St, ∃ s', mForEach (backup_site env) l s = (.ok (), s') := by
  induction l with
  | nil => exact fun s => ⟨s, rfl⟩
  | cons x xs ih =>
      intro s
      have hx : env.frappeCode ["--site", x, "backup"] = 0 :=
        h0 x (List.mem_cons_self x xs)
      have hbs : backup_site env x s = (.ok (),
          { s with trace := s.trace ++ [Eff.frappeCmd ["--site", x, "backup"]] }) := by
        unfold backup_site run_frappe_cmd
        simp [UpdM.bind, emit, hx, throwE]
      obtain ⟨s', h'⟩ := ih (fun site hs => h0 site (List.mem_cons_of_mem x hs))
        { s with trace := s.trace ++ [Eff.frappeCmd ["--site", x, "backup"]] }
      refine ⟨s', ?_⟩
      show (backup_site env x >>= fun _ => mForEach (backup_site env) xs) s
        = (.ok (), s')
      rw [run_bind_ok hbs]
      exact h'

/-- With all four stage flags unset and no major upgrade, the preflight
succeeds and the all-stages-default rule enables all four stages. -/
theorem update_preflight_ok_defaults (env : Env) (a : UpdateArgs) (s : St)
    (hrel : confTruthy s.conf "release_bench" = false)
    (hbr : env.branchValid = true)
    (hM : env.isMajorUpgrade = false) (hF : a.force = false)
    (hpull : a.pull = false) (hpatch : a.patch = false)
    (hbuild : a.build = false) (hreq : a.requirements = false) :
    (update_preflight env a s).1 = .ok (true, true, true, true) := by
  unfold update_preflight validate_branch whenB clear_command_cache
  by_cases hc : s.cacheExists <;>
    by_cases hsh : a.reset = false ∧ confTruthy s.conf "shallow_clone" = true <;>
      simp [UpdM.bind, emit, getConf, throwE, hrel, hbr, hM, hF, hc, hsh,
        hpull, hpatch, hbuild, hreq]

/-- C10 (confirmed): invoking `update` with a non-empty operator-provided
apps string but the pull flag unset discards the list before any stage
runs — when the all-stages-default rule then enables pull, the source-sync
stage records a pull over all installed applications, not the given
subset.  (The premises pin the run to a path that reaches the pull stage:
non-release bench, valid branch, no major upgrade, and backups that
succeed.) -/
theorem update_discards_apps_without_pull (env : Env) (a : UpdateArgs)
    (s : St) (appsStr : String)
    (happs : a.apps = some appsStr) (hne : appsStr ≠ "")
    (hpull : a.pull = false) (hpatch : a.patch = false)
    (hbuild : a.build = false) (hreq : a.requirements = false)
    (hrel : confTruthy s.conf "release_bench" = false)
    (hbr : env.branchValid = true)
    (hM : env.isMajorUpgrade = false) (hF : a.force = false)
    (hbk : ∀ site ∈ env.sites, env.frappeCode ["--site", site, "backup"] = 0) :
    Eff.pullApps env.installedApps a.reset ∈ ((update env a s).2).trace := by
  have hQt : NonConfOK (fun _ => True) := fun _ _ => trivial
  have hexit : StepsP (fun _ => True) update_exit_maintenance := by
    unfold update_exit_maintenance
    exact stepsP_bind (stepsP_confUpdateStep trivial) fun _ => stepsP_emit trivial
  have hfl := update_preflight_ok_defaults env a s hrel hbr hM hF hpull hpatch
    hbuild hreq
  rcases hp : update_preflight env a s with ⟨r1, s1⟩
  rw [hp] at hfl
  simp only [] at hfl
  subst hfl
  have hu : update env a s = ((update_enter_maintenance >>= fun _ =>
      update_stages env a true true true true >>= fun _ =>
      update_exit_maintenance)) s1 := by
    unfold update
    exact run_bind_ok hp
  rw [hu, run_bind_ok (run_enter s1)]
  unfold update_stages
  rw [run_bind_assoc]
  have hB : ∃ sB, whenB a.backup (backup_all_sites env) (maintOn s1)
      = (.ok (), sB) := by
    cases hbkc : a.backup
    · exact ⟨maintOn s1, by simp [whenB]⟩
    · obtain ⟨sB, hB⟩ := mForEach_backup_ok env env.sites hbk (maintOn s1)
      refine ⟨sB, ?_⟩
      show backup_all_sites env (maintOn s1) = (.ok (), sB)
      exact hB
  obtain ⟨sB, hB⟩ := hB
  rw [run_bind_ok hB]
  rw [run_bind_assoc]
  have hPull : whenB true (pull_apps env (resolveAppsArg a.apps a.pull) a.reset) sB
      = (.ok (), { sB with
          trace := sB.trace ++ [Eff.pullApps env.installedApps a.reset] }) := by
    unfold whenB pull_apps resolveAppsArg
    simp [happs, hne, hpull, emit]
  rw [run_bind_ok hPull]
  apply mem_trace_mono
  · refine stepsP_bind ?_ fun _ => hexit
    refine stepsP_bind ?_ fun _ => ?_
    · refine stepsP_whenB ?_
      refine stepsP_bind ?_ fun _ => ?_
      · exact stepsP_update_requirements hQt env
      exact stepsP_update_node_packages hQt env
    refine stepsP_bind ?_ fun _ => ?_
    · exact stepsP_whenB (stepsP_patch_sites hQt env)
    refine stepsP_bind ?_ fun _ => ?_
    · exact stepsP_whenB (stepsP_build_assets hQt env none)
    refine stepsP_bind ?_ fun _ => ?_
    · exact stepsP_whenB (stepsP_post_upgrade hQt)
    refine stepsP_bind ?_ fun _ => ?_
    · exact stepsP_whenB (stepsP_emit trivial)
    refine stepsP_bind ?_ fun conf => ?_
    · exact stepsP_getConf
    refine stepsP_bind ?_ fun _ => ?_
    · exact stepsP_whenB (stepsP_emit trivial)
    refine stepsP_bind ?_ fun conf2 => ?_
    · exact stepsP_getConf
    exact stepsP_whenB (stepsP_emit trivial)
  · simp


/-- The default CLI invocation plus an operator-provided apps list. -/
def argsC10 : UpdateArgs := { UpdateArgs.default with apps := some "erpnext" }

set_option maxHeartbeats 2000000 in
/-- C10 witness: the theorem applied to a concrete run with
`apps="erpnext"` and no `--pull`. -/
theorem update_discards_apps_without_pull_witness :
    Eff.pullApps baseEnv.installedApps argsC10.reset
      ∈ ((update baseEnv argsC10 st0).2).trace :=
  update_discards_apps_without_pull baseEnv argsC10 st0 "erpnext" rfl
    (by decide) rfl rfl rfl rfl rfl rfl rfl rfl (fun _ _ => rfl)

end Bench
